import Mathlib

/-!
Shallow embedding of `mage_ai/frontend/storage/ApplicationManager/cache.ts`
(the layout/state reconciliation engine of the application manager) and proofs
about it.

Modelling conventions:
* JS numbers are modelled as `ℚ` (every arithmetic operation used by the
  source — `+`, `-`, `/ 2`, `Math.max`, `Math.min`, comparisons — is exact on
  the rationals; no NaN arises on the code paths modelled here).
* A JS value that may be `null`/`undefined` is an `Option`; `none` stands for
  both (`selectEntriesWithValues` and `|| {}` treat the two alike).
* The host environment is explicit: `Env.browser ih iw` is a page where the
  global `window` is declared with `window.innerHeight = ih` and
  `window.innerWidth = iw`; `Env.node` is an environment where the global
  `window` is not declared, so that evaluating `window` (even as
  `window?.innerHeight`) raises a ReferenceError, modelled as `Except.error ()`.
* The durable key-value store holds the registry under one key; it is passed
  in and returned explicitly (`stored` below), and the source's in-place
  mutation of its `application` argument is returned explicitly as the
  `applicationAfter` field of `UpdateOutcome`.
-/

namespace AMCache

/-- Pixel size of an application window; fields may be absent (partial layouts). -/
structure Dimension where
  height : Option ℚ
  width : Option ℚ
  deriving DecidableEq, Repr

/-- Top-left offset plus stacking order; fields may be absent (partial layouts). -/
structure Position where
  x : Option ℚ
  y : Option ℚ
  z : Option ℚ
  deriving DecidableEq, Repr

/-- Composite geometry of one application window (`LayoutType`); either part
may be absent in a partial layout coming from a caller. -/
structure Layout where
  dimension : Option Dimension
  position : Option Position
  deriving DecidableEq, Repr

/-- Modelled from the spec: `StatusEnum` from `./constants` (the constants
module is not under `src/`); only the distinction CLOSED vs anything else is
load-bearing in this core. -/
inductive StatusEnum where
  | OPEN
  | CLOSED
  | MINIMIZED
  deriving DecidableEq, Repr

/-- Modelled from the spec: `StateType` from `./constants` — lifecycle flag. -/
structure AppState where
  status : Option StatusEnum
  deriving DecidableEq, Repr

/-- Modelled from the spec: `ApplicationManagerApplication` from `./constants` —
one tracked window. The configuration blob is application-specific and passed
through uninspected; a `ℕ` token stands for it. An `Option` field being `none`
models the key being absent from the JS object (so an object spread does not
overwrite with it). This one structure also serves as the `updateApplication`
patch argument, which has the same fields. -/
structure Application where
  uuid : String
  layout : Option Layout
  state : Option AppState
  applicationConfiguration : Option ℕ
  deriving DecidableEq, Repr

/-- Host environment: `browser` has the global `window` declared with the given
`innerHeight`/`innerWidth`; `node` has no `window` global at all. -/
inductive Env where
  | browser (innerHeight innerWidth : ℚ)
  | node
  deriving DecidableEq, Repr

/-- Value of `window.innerHeight` when `window` is declared. -/
def Env.innerHeight : Env → Option ℚ
  | Env.browser ih _ => some ih
  | Env.node => none

/-- Value of `window.innerWidth` when `window` is declared. -/
def Env.innerWidth : Env → Option ℚ
  | Env.browser _ iw => some iw
  | Env.node => none

/-- JS truthiness of a possibly-absent number: `null`, `undefined` and `0` are
falsy; every other rational is truthy (NaN does not arise here). -/
def truthy : Option ℚ → Bool
  | none => false
  | some q => q != 0

/-- The constant `APPLICATION_PADDING` of the source. -/
def APPLICATION_PADDING : ℚ := 16

/-- The source's `minimumLayout()`: the fixed floor layout. -/
def minimumLayout : Layout :=
  { dimension := some { height := some 240, width := some 300 }
  , position := some { x := some 0, y := some 0, z := some 100 } }

/-- The source expression
`totalProp || typeof window !== 'undefined' ? window?.innerX : alt`.
By JS operator precedence `||` binds tighter than `?:`, so it parses as
`(totalProp || (typeof window !== 'undefined')) ? window?.innerX : alt`.
`windowField` is `some v` when the `window` global is declared and the inner
field equals `v`, `none` when `window` is not declared, in which case
evaluating `window?.innerX` raises a ReferenceError (`Except.error ()`). -/
def resolveTotal (windowField : Option ℚ) (totalProp : Option ℚ) (alt : ℚ) :
    Except Unit ℚ :=
  if truthy totalProp || windowField.isSome then
    match windowField with
    | some v => Except.ok v
    | none => Except.error ()
  else
    Except.ok alt

/-- Body of `buildDefaultLayout` once the totals are resolved: height clamped
to `[784, 1200]`, width to `[980, 1500]`, each shrunk by `2 × PADDING`, and the
window centered in the totals with `z = 10`. -/
def buildDefaultLayoutFrom (totalHeight totalWidth : ℚ) : Layout :=
  let height := max (min totalHeight 1200) 784 - APPLICATION_PADDING * 2
  let width := max (min totalWidth 1500) 980 - APPLICATION_PADDING * 2
  { dimension := some { height := some height, width := some width }
  , position := some
      { x := some ((totalWidth - width) / 2)
      , y := some ((totalHeight - height) / 2)
      , z := some 10 } }

/-- The source's `buildDefaultLayout({height, width} = {height: null, width: null})`.
The two props default to `null` when the caller passes nothing (`none` here). -/
def buildDefaultLayout (env : Env) (heightProp widthProp : Option ℚ) :
    Except Unit Layout :=
  match resolveTotal env.innerHeight heightProp 1200 with
  | Except.error e => Except.error e
  | Except.ok totalHeight =>
    match resolveTotal env.innerWidth widthProp 1500 with
    | Except.error e => Except.error e
    | Except.ok totalWidth => Except.ok (buildDefaultLayoutFrom totalHeight totalWidth)

/-- The layout the source's internal no-argument `buildDefaultLayout()` call
produces: both props are `null` (falsy), so the resolved totals are
`window.innerHeight` / `window.innerWidth` in a browser and the constants
`1200` / `1500` when `window` is not declared; this path never faults
(`buildDefaultLayout_noArgs` below ties it to `buildDefaultLayout`). -/
def defaultLayoutNoArgs : Env → Layout
  | Env.browser ih iw => buildDefaultLayoutFrom ih iw
  | Env.node => buildDefaultLayoutFrom 1200 1500

theorem buildDefaultLayout_noArgs (env : Env) :
    buildDefaultLayout env none none = Except.ok (defaultLayoutNoArgs env) := by
  cases env <;> rfl

/-- C1. The claim says an explicitly supplied viewport is used in preference to
the host window's size, with `dimension.height = clamp(height, 784, 1200) - 32`
and `dimension.width = clamp(width, 980, 1500) - 32`. The code disagrees: in
`totalHeightProp || typeof window !== 'undefined' ? window?.innerHeight : 1200`
the `||` binds tighter than `?:`, so whenever `window` is declared the whole
expression yields `window.innerHeight` and the supplied viewport is ignored.
At viewport `{height: 1000, width: 1100}` with `window.innerHeight = 600` and
`window.innerWidth = 700`, the code returns height `752` and width `948`
(computed from the window), not the claimed `968` and `1068` (computed from the
viewport). -/
theorem buildDefaultLayout_ignores_viewport :
    buildDefaultLayout (Env.browser 600 700) (some 1000) (some 1100)
      = Except.ok (buildDefaultLayoutFrom 600 700)
    ∧ buildDefaultLayoutFrom 600 700
      = { dimension := some { height := some 752, width := some 948 }
        , position := some { x := some (-124), y := some (-76), z := some 10 } }
    ∧ (752 : ℚ) ≠ max (min 1000 1200) 784 - APPLICATION_PADDING * 2
    ∧ (948 : ℚ) ≠ max (min 1100 1500) 980 - APPLICATION_PADDING * 2 := by
  refine ⟨rfl, ?_, ?_, ?_⟩ <;>
    norm_num [buildDefaultLayoutFrom, APPLICATION_PADDING, min_def, max_def]

/-- C9. With no viewport observable (no `window` global) and no arguments, the
fallback totals `1200 × 1500` are used: the resulting dimension `1168 × 1468`
lies within `[784, 1200] × [980, 1500]` and the position centers the window in
the `1200 × 1500` area (`x = (1500 - width)/2`, `y = (1200 - height)/2`). -/
theorem buildDefaultLayout_fallback_centered :
    buildDefaultLayout Env.node none none
      = Except.ok
          { dimension := some { height := some 1168, width := some 1468 }
          , position := some { x := some 16, y := some 16, z := some 10 } }
    ∧ (784 : ℚ) ≤ 1168 ∧ (1168 : ℚ) ≤ 1200
    ∧ (980 : ℚ) ≤ 1468 ∧ (1468 : ℚ) ≤ 1500
    ∧ (16 : ℚ) = (1500 - 1468) / 2 ∧ (16 : ℚ) = (1200 - 1168) / 2 := by
  refine ⟨?_, by norm_num, by norm_num, by norm_num, by norm_num, by norm_num, by norm_num⟩
  show Except.ok (buildDefaultLayoutFrom 1200 1500) = _
  norm_num [buildDefaultLayoutFrom, APPLICATION_PADDING, min_def, max_def]

/-- The source expression `layout?.position || {}`: the position part of a
possibly-absent layout, defaulting to the empty object (all fields absent). -/
def getPosition (ol : Option Layout) : Position :=
  (ol.bind Layout.position).getD { x := none, y := none, z := none }

/-- The source expression `layout?.dimension || {}`. -/
def getDimension (ol : Option Layout) : Dimension :=
  (ol.bind Layout.dimension).getD { height := none, width := none }

/-- Modelled from the spec: the merge
`{...selectEntriesWithValues(prev), ...selectEntriesWithValues(new)}` where
`selectEntriesWithValues` (from `@utils/hash`, not under `src/`) keeps exactly
the keys whose values are defined (non-null/non-undefined). Field-wise: the
new value's defined field wins, otherwise the previous defined field is kept,
otherwise the field is absent. -/
def mergePositions (prev new : Position) : Position :=
  { x := new.x.orElse fun _ => prev.x
  , y := new.y.orElse fun _ => prev.y
  , z := new.z.orElse fun _ => prev.z }

/-- Modelled from the spec: the dimension instance of the same spread merge as
`mergePositions`. -/
def mergeDimensions (prev new : Dimension) : Dimension :=
  { height := new.height.orElse fun _ => prev.height
  , width := new.width.orElse fun _ => prev.width }

/-- JS `a > b` on possibly-absent numbers: any comparison against
null-or-undefined on either side is false (NaN semantics); otherwise the
rational comparison. -/
def jsGt : Option ℚ → Option ℚ → Bool
  | some a, some b => decide (b < a)
  | some _, none => false
  | none, _ => false

/-- The post-merge clamp of `updateLayout`: the default layout is recomputed
via the internal no-argument `buildDefaultLayout()` call, and then
`if (dimension?.height > dimensionDefault?.height) { dimension.height =
dimensionDefault.height; position.y = positionDefault.y; }` and the identical
rule for width/x. The two `if`s act on disjoint fields (height/y and width/x)
and both conditions read the merged dimension, so the sequential mutation of
the source is rendered as per-field conditionals. `z` passes through. -/
def clampToDefault (env : Env) (dimension0 : Dimension) (position0 : Position) :
    Layout :=
  let dimensionDefault := (defaultLayoutNoArgs env).dimension
  let positionDefault := (defaultLayoutNoArgs env).position
  let hClamp := jsGt dimension0.height (dimensionDefault.bind Dimension.height)
  let wClamp := jsGt dimension0.width (dimensionDefault.bind Dimension.width)
  { dimension := some
      { height := if hClamp then dimensionDefault.bind Dimension.height else dimension0.height
      , width := if wClamp then dimensionDefault.bind Dimension.width else dimension0.width }
  , position := some
      { x := if wClamp then positionDefault.bind Position.x else position0.x
      , y := if hClamp then positionDefault.bind Position.y else position0.y
      , z := position0.z } }

/-- The source's `updateLayout(layout, layoutPrev)`: when both arguments are
absent it returns `buildDefaultLayout()` (which never faults with no
arguments, see `buildDefaultLayout_noArgs`); otherwise the defined-field
overlay of the previous and new position/dimension, clamped to the default. -/
def updateLayout (env : Env) (layout layoutPrev : Option Layout) : Layout :=
  if layout.isNone && layoutPrev.isNone then
    defaultLayoutNoArgs env
  else
    clampToDefault env
      (mergeDimensions (getDimension layoutPrev) (getDimension layout))
      (mergePositions (getPosition layoutPrev) (getPosition layout))

/-- Modelled from the spec: `dig(layout, 'dimension.height')` where `dig` (from
`@utils/hash`, not under `src/`) is a nested lookup yielding the value, or
undefined when any step of the path is absent. -/
def dig_dimension_height (l : Option Layout) : Option ℚ :=
  (l.bind Layout.dimension).bind Dimension.height

/-- Modelled from the spec: `dig(layout, 'dimension.width')`. -/
def dig_dimension_width (l : Option Layout) : Option ℚ :=
  (l.bind Layout.dimension).bind Dimension.width

/-- Modelled from the spec: `dig(layout, 'position.x')`. -/
def dig_position_x (l : Option Layout) : Option ℚ :=
  (l.bind Layout.position).bind Position.x

/-- Modelled from the spec: `dig(layout, 'position.y')`. -/
def dig_position_y (l : Option Layout) : Option ℚ :=
  (l.bind Layout.position).bind Position.y

/-- Modelled from the spec: `dig(layout, 'position.z')` (used only to observe
what validation does to `z`). -/
def dig_position_z (l : Option Layout) : Option ℚ :=
  (l.bind Layout.position).bind Position.z

/-- The layout rebuilt by the source's `validateLayout`: it starts from a fresh
all-null object and `setNested`s, for each of the four scalar keys,
`Math.max(dig(layout, key) || 0, dig(minimumLayout(), key))`. `(...).getD 0`
renders `dig(...) || 0` (the only falsy rational is `0`, and `0 || 0 = 0`);
the constants `240, 300, 0, 0` are `dig(minimumLayout(), key)` for the four
keys (`minimumLayout_digs` below). The `z` slot of the fresh object is `null`
and the loop never writes it. -/
def validateLayoutL (layout : Option Layout) : Layout :=
  { dimension := some
      { height := some (max ((dig_dimension_height layout).getD 0) 240)
      , width := some (max ((dig_dimension_width layout).getD 0) 300) }
  , position := some
      { x := some (max ((dig_position_x layout).getD 0) 0)
      , y := some (max ((dig_position_y layout).getD 0) 0)
      , z := none } }

theorem minimumLayout_digs :
    dig_dimension_height (some minimumLayout) = some 240
    ∧ dig_dimension_width (some minimumLayout) = some 300
    ∧ dig_position_x (some minimumLayout) = some 0
    ∧ dig_position_y (some minimumLayout) = some 0 :=
  ⟨rfl, rfl, rfl, rfl⟩

/-- The source's `validateLayout(app)`: replaces the entry's `layout` field
wholesale with the rebuilt layout and returns the entry. -/
def validateApp (app : Application) : Application :=
  { app with layout := some (validateLayoutL app.layout) }

/-- C2. For every merged layout produced by `updateLayout` (at least one of the
two arguments present, so the merge branch runs): if the merged dimension's
height exceeds the current default layout's height, the result's height equals
the default height AND the result's `y` equals the default position's `y`; the
identical coupled reset holds for width and `x`. -/
theorem updateLayout_clamp_resets (env : Env) (layout layoutPrev : Option Layout)
    (hne : layout.isSome = true ∨ layoutPrev.isSome = true) :
    (jsGt (mergeDimensions (getDimension layoutPrev) (getDimension layout)).height
        ((defaultLayoutNoArgs env).dimension.bind Dimension.height) = true →
      (updateLayout env layout layoutPrev).dimension.bind Dimension.height
          = (defaultLayoutNoArgs env).dimension.bind Dimension.height
        ∧ (updateLayout env layout layoutPrev).position.bind Position.y
          = (defaultLayoutNoArgs env).position.bind Position.y)
    ∧ (jsGt (mergeDimensions (getDimension layoutPrev) (getDimension layout)).width
        ((defaultLayoutNoArgs env).dimension.bind Dimension.width) = true →
      (updateLayout env layout layoutPrev).dimension.bind Dimension.width
          = (defaultLayoutNoArgs env).dimension.bind Dimension.width
        ∧ (updateLayout env layout layoutPrev).position.bind Position.x
          = (defaultLayoutNoArgs env).position.bind Position.x) := by
  have hne' : (layout.isNone && layoutPrev.isNone) = false := by
    rcases hne with h | h <;> cases layout <;> cases layoutPrev <;> simp_all
  have hu : updateLayout env layout layoutPrev
      = clampToDefault env
          (mergeDimensions (getDimension layoutPrev) (getDimension layout))
          (mergePositions (getPosition layoutPrev) (getPosition layout)) := by
    simp [updateLayout, hne']
  rw [hu]
  constructor <;> intro hcond <;> simp [clampToDefault, hcond]

/-- Concrete instance of `updateLayout_clamp_resets`: a fresh 2000 × 2000
request in a window-less environment snaps to the default height/width and to
the default `y`/`x`. -/
theorem updateLayout_clamp_resets_witness :
    ((updateLayout Env.node
        (some { dimension := some { height := some 2000, width := some 2000 }
              , position := some { x := some 1, y := some 2, z := some 3 } })
        none).dimension.bind Dimension.height
      = (defaultLayoutNoArgs Env.node).dimension.bind Dimension.height
    ∧ (updateLayout Env.node
        (some { dimension := some { height := some 2000, width := some 2000 }
              , position := some { x := some 1, y := some 2, z := some 3 } })
        none).position.bind Position.y
      = (defaultLayoutNoArgs Env.node).position.bind Position.y)
    ∧ ((updateLayout Env.node
        (some { dimension := some { height := some 2000, width := some 2000 }
              , position := some { x := some 1, y := some 2, z := some 3 } })
        none).dimension.bind Dimension.width
      = (defaultLayoutNoArgs Env.node).dimension.bind Dimension.width
    ∧ (updateLayout Env.node
        (some { dimension := some { height := some 2000, width := some 2000 }
              , position := some { x := some 1, y := some 2, z := some 3 } })
        none).position.bind Position.x
      = (defaultLayoutNoArgs Env.node).position.bind Position.x) := by
  have h := updateLayout_clamp_resets Env.node
    (some { dimension := some { height := some 2000, width := some 2000 }
          , position := some { x := some 1, y := some 2, z := some 3 } })
    none (Or.inl rfl)
  refine ⟨h.1 ?_, h.2 ?_⟩ <;>
    norm_num [jsGt, mergeDimensions, getDimension, defaultLayoutNoArgs,
      buildDefaultLayoutFrom, APPLICATION_PADDING, min_def, max_def, Option.orElse]

/-- C6. When both the new partial layout and the previous layout are present,
`updateLayout` is the defined-field overlay of the two (position and dimension
independently) followed by the clamp-to-default: a field absent in the new
value retains the previous value, a field set in the new value wins, and a
field set in neither remains undefined going into validation. -/
theorem updateLayout_merge_overlay (env : Env) (l p : Layout) :
    updateLayout env (some l) (some p)
      = clampToDefault env
          (mergeDimensions (getDimension (some p)) (getDimension (some l)))
          (mergePositions (getPosition (some p)) (getPosition (some l)))
    ∧ ((getPosition (some l)).x = none →
        (mergePositions (getPosition (some p)) (getPosition (some l))).x
          = (getPosition (some p)).x)
    ∧ ((getPosition (some l)).y = none →
        (mergePositions (getPosition (some p)) (getPosition (some l))).y
          = (getPosition (some p)).y)
    ∧ ((getDimension (some l)).height = none →
        (mergeDimensions (getDimension (some p)) (getDimension (some l))).height
          = (getDimension (some p)).height)
    ∧ (∀ v, (getPosition (some l)).x = some v →
        (mergePositions (getPosition (some p)) (getPosition (some l))).x = some v)
    ∧ ((getPosition (some l)).y = none → (getPosition (some p)).y = none →
        (mergePositions (getPosition (some p)) (getPosition (some l))).y = none)
    ∧ ((getDimension (some l)).height = none → (getDimension (some p)).height = none →
        (mergeDimensions (getDimension (some p)) (getDimension (some l))).height
          = none) := by
  refine ⟨rfl, ?_, ?_, ?_, ?_, ?_, ?_⟩
  · intro h; simp [mergePositions, h, Option.orElse]
  · intro h; simp [mergePositions, h, Option.orElse]
  · intro h; simp [mergeDimensions, h, Option.orElse]
  · intro v h; simp [mergePositions, h, Option.orElse]
  · intro h h2; simp [mergePositions, h, h2, Option.orElse]
  · intro h h2; simp [mergeDimensions, h, h2, Option.orElse]

/-- C4. The validation pass sets each of the four scalar fields to
`max(dig(layout, key) || 0, dig(minimumLayout(), key))`, so after validation
`height ≥ 240`, `width ≥ 300`, `x ≥ 0`, `y ≥ 0`; a missing candidate (and a
falsy `0`) is treated as `0` before the floor, and the pass is a total
function. -/
theorem validateApp_floors (app : Application) :
    (validateApp app).layout = some (validateLayoutL app.layout)
    ∧ dig_dimension_height ((validateApp app).layout)
        = some (max ((dig_dimension_height app.layout).getD 0) 240)
    ∧ dig_dimension_width ((validateApp app).layout)
        = some (max ((dig_dimension_width app.layout).getD 0) 300)
    ∧ dig_position_x ((validateApp app).layout)
        = some (max ((dig_position_x app.layout).getD 0) 0)
    ∧ dig_position_y ((validateApp app).layout)
        = some (max ((dig_position_y app.layout).getD 0) 0)
    ∧ (∀ q, dig_dimension_height ((validateApp app).layout) = some q → 240 ≤ q)
    ∧ (∀ q, dig_dimension_width ((validateApp app).layout) = some q → 300 ≤ q)
    ∧ (∀ q, dig_position_x ((validateApp app).layout) = some q → 0 ≤ q)
    ∧ (∀ q, dig_position_y ((validateApp app).layout) = some q → 0 ≤ q)
    ∧ (dig_dimension_height app.layout = none →
        dig_dimension_height ((validateApp app).layout) = some 240)
    ∧ (dig_dimension_height app.layout = some 0 →
        dig_dimension_height ((validateApp app).layout) = some 240) := by
  have hh : dig_dimension_height ((validateApp app).layout)
      = some (max ((dig_dimension_height app.layout).getD 0) 240) := rfl
  have hw : dig_dimension_width ((validateApp app).layout)
      = some (max ((dig_dimension_width app.layout).getD 0) 300) := rfl
  have hx : dig_position_x ((validateApp app).layout)
      = some (max ((dig_position_x app.layout).getD 0) 0) := rfl
  have hy : dig_position_y ((validateApp app).layout)
      = some (max ((dig_position_y app.layout).getD 0) 0) := rfl
  refine ⟨rfl, hh, hw, hx, hy, ?_, ?_, ?_, ?_, ?_, ?_⟩
  · intro q h; rw [hh] at h; rw [← Option.some.inj h]; exact le_max_right _ _
  · intro q h; rw [hw] at h; rw [← Option.some.inj h]; exact le_max_right _ _
  · intro q h; rw [hx] at h; rw [← Option.some.inj h]; exact le_max_right _ _
  · intro q h; rw [hy] at h; rw [← Option.some.inj h]; exact le_max_right _ _
  · intro h; rw [hh, h]; norm_num [max_def]
  · intro h; rw [hh, h]; norm_num [max_def]

theorem validateLayoutL_idem (L : Option Layout) :
    validateLayoutL (some (validateLayoutL L)) = validateLayoutL L := by
  simp [validateLayoutL, dig_dimension_height, dig_dimension_width,
    dig_position_x, dig_position_y, max_assoc]

/-- C7. Applying the validation pass twice yields the same result as applying
it once (on the whole entry, so in particular on its layout). -/
theorem validateApp_idempotent (app : Application) :
    validateApp (validateApp app) = validateApp app := by
  show ({ app with layout := some (validateLayoutL (some (validateLayoutL app.layout))) }
    : Application) = { app with layout := some (validateLayoutL app.layout) }
  rw [validateLayoutL_idem]

/-- C8 counterexample. The claim says the validation pass leaves `position.z`
as the caller supplied it. On a layout with `z = 10`, validation returns a
layout whose `z` is null: the rebuilt layout initializes `z` to null and the
floor loop never writes it, so a supplied `z` is discarded, not passed
through. -/
theorem validateLayout_z_counterexample :
    dig_position_z (some { dimension := none
                         , position := some { x := some 1, y := some 2, z := some 10 } })
      = some 10
    ∧ dig_position_z (some (validateLayoutL
        (some { dimension := none
              , position := some { x := some 1, y := some 2, z := some 10 } })))
      = none
    ∧ (some (10 : ℚ) : Option ℚ) ≠ none :=
  ⟨rfl, rfl, by simp⟩

/-- C8 amended. After the validation pass, `position.z` is always null: the
floor loop rewrites only the four scalar fields, and the rebuilt layout's `z`
slot stays at its initial null, so an absent `z` remains absent and a supplied
`z` is discarded rather than passed through. -/
theorem validateLayoutL_z_reset (layout : Option Layout) :
    dig_position_z (some (validateLayoutL layout)) = none := rfl

/-- JS `Array.prototype.findIndex`, with the source's `-1` sentinel rendered as
`none` (the source branches on `index >= 0`, which is exactly the `some`/`none`
distinction). -/
def findIndex {α : Type} (p : α → Bool) : List α → Option Nat
  | [] => none
  | a :: as => if p a then some 0 else (findIndex p as).map (· + 1)

/-- The source's `getApplications({status, uuid} = {})`. The read
`(get(KEY) || [])?.filter(a => !!a)` is modelled as the stored registry list
with null slots already excluded (the write side filters them out before every
`set`, and no operation modelled here stores a null). With a filter present,
an entry matches when it agrees with every given constraint
(`app?.state?.status === status`, `app?.uuid === uuid`). -/
def getApplications (stored : List Application) (status : Option StatusEnum)
    (uuid : Option String) : List Application :=
  let arr := stored
  if status.isSome || uuid.isSome then
    arr.filter fun app =>
      (match status with
       | none => true
       | some s =>
         match app.state with
         | none => false
         | some st => st.status == some s)
      && (match uuid with
          | none => true
          | some u => app.uuid == u)
  else
    arr

/-- The source's `getCurrentlyOpenedApplications()`: every entry whose
`state?.status` is not CLOSED. -/
def getCurrentlyOpenedApplications (stored : List Application) : List Application :=
  (getApplications stored none none).filter fun app =>
    !(match app.state with
      | none => false
      | some st => st.status == some StatusEnum.CLOSED)

/-- The source's test `state?.status === StatusEnum.CLOSED` on the patch. -/
def isClosedPatch (application : Application) : Bool :=
  match application.state with
  | none => false
  | some st => st.status == some StatusEnum.CLOSED

/-- The entry written back by the non-close branch of `updateApplication`:
`appUpdated = validateLayout({...(app || {}), ...application})`, after the
source has already overwritten `application.layout` with the merged layout.
The spread makes the patch's present keys win (`uuid` and `layout` are always
present at this point; `state`/`applicationConfiguration` fall back to the
found entry's values when the patch omits them). -/
def mergedEntry (env : Env) (application : Application) (app : Option Application) :
    Application :=
  validateApp
    { uuid := application.uuid
    , layout := some (updateLayout env application.layout (app.bind Application.layout))
    , state := application.state.orElse fun _ => app.bind Application.state
    , applicationConfiguration :=
        application.applicationConfiguration.orElse fun _ =>
          app.bind Application.applicationConfiguration }

/-- Everything one `updateApplication` call produces: the registry written
back to storage (`apps`), the value returned to the caller (`returned`), and
the final state of the caller-supplied `application` object, which the source
mutates in place (`applicationAfter`). -/
structure UpdateOutcome where
  apps : List Application
  returned : Option Application
  applicationAfter : Application
  deriving DecidableEq, Repr

/-- The source's `updateApplication(application)`. On CLOSED: drop every entry
with the patch's uuid, return nothing. Otherwise: find the entry by uuid,
merge the layout (`application.layout = updateLayout(...)` — an in-place
mutation of the argument), spread the patch over the found entry, validate,
and replace in place or append. The final `set(KEY, apps?.filter(a => !!a))`
is the identity here since no null slot is ever produced. -/
def updateApplication (env : Env) (application : Application)
    (stored : List Application) : UpdateOutcome :=
  let apps := getApplications stored none none
  if isClosedPatch application then
    { apps := apps.filter fun a2 => application.uuid != a2.uuid
    , returned := none
    , applicationAfter := application }
  else
    let idx := findIndex (fun a2 => application.uuid == a2.uuid) apps
    let app := idx.bind fun i => apps[i]?
    let applicationMut :=
      { application with
          layout := some (updateLayout env application.layout (app.bind Application.layout)) }
    let appUpdated := mergedEntry env application app
    { apps :=
        match idx with
        | some i => apps.set i appUpdated
        | none => apps ++ [appUpdated]
    , returned := some appUpdated
    , applicationAfter := applicationMut }

/-- The source's `closeApplication(uuid)`. -/
def closeApplication (env : Env) (uuid : String) (stored : List Application) :
    UpdateOutcome :=
  updateApplication env
    { uuid := uuid
    , layout := none
    , state := some { status := some StatusEnum.CLOSED }
    , applicationConfiguration := none }
    stored

theorem getApplications_noFilter (stored : List Application) :
    getApplications stored none none = stored := rfl

theorem getApplications_byUuid (stored : List Application) (u : String) :
    getApplications stored none (some u) = stored.filter fun a => a.uuid == u := rfl

/-- Number of registry entries carrying a given uuid. -/
def countUuid (u : String) (l : List Application) : Nat :=
  (l.filter fun a => a.uuid == u).length

theorem findIndex_some {α : Type} {p : α → Bool} {l : List α} {i : Nat}
    (h : findIndex p l = some i) : ∃ a, l[i]? = some a ∧ p a = true := by
  induction l generalizing i with
  | nil => simp [findIndex] at h
  | cons a as ih =>
    rw [findIndex] at h
    by_cases hp : p a
    · rw [if_pos hp] at h
      injection h with h0
      exact h0 ▸ ⟨a, by simp, hp⟩
    · rw [if_neg hp] at h
      rcases Option.map_eq_some'.mp h with ⟨j, hj, hji⟩
      rcases ih hj with ⟨b, hb, hpb⟩
      refine ⟨b, ?_, hpb⟩
      rw [← hji]
      simpa using hb

theorem findIndex_none {α : Type} {p : α → Bool} {l : List α}
    (h : findIndex p l = none) : ∀ a ∈ l, p a = false := by
  induction l with
  | nil => intro a ha; simp at ha
  | cons a as ih =>
    rw [findIndex] at h
    by_cases hp : p a
    · rw [if_pos hp] at h; cases h
    · rw [if_neg hp] at h
      intro b hb
      rcases List.mem_cons.mp hb with rfl | hb2
      · simpa using hp
      · exact ih (Option.map_eq_none'.mp h) b hb2

theorem findIndex_eq_none {α : Type} {p : α → Bool} {l : List α}
    (h : ∀ a ∈ l, p a = false) : findIndex p l = none := by
  induction l with
  | nil => rfl
  | cons a as ih =>
    rw [findIndex, if_neg, ih, Option.map_none']
    · intro b hb; exact h b (List.mem_cons_of_mem a hb)
    · simp [h a (List.mem_cons_self a as)]

theorem countUuid_filter_le (u : String) (q : Application → Bool)
    (l : List Application) : countUuid u (l.filter q) ≤ countUuid u l :=
  List.Sublist.length_le (List.Sublist.filter _ (List.filter_sublist l))

theorem countUuid_set (u : String) (l : List Application) (i : Nat)
    (b : Application) (h : ∃ a, l[i]? = some a ∧ a.uuid = b.uuid) :
    countUuid u (l.set i b) = countUuid u l := by
  induction l generalizing i with
  | nil => simp
  | cons a as ih =>
    rcases h with ⟨c, hc, hcb⟩
    cases i with
    | zero =>
      have hca : a = c := by simpa using hc
      subst hca
      simp only [List.set_cons_zero, countUuid, List.filter_cons]
      rw [hcb]
      by_cases hcond : (b.uuid == u) = true <;> simp [hcond]
    | succ j =>
      have hc' : as[j]? = some c := by simpa using hc
      show countUuid u (a :: as.set j b) = countUuid u (a :: as)
      have hrec := ih j ⟨c, hc', hcb⟩
      simp only [countUuid, List.filter_cons] at hrec ⊢
      by_cases ha : (a.uuid == u) = true <;> simp [ha, hrec]

theorem countUuid_append (u : String) (l : List Application) (b : Application) :
    countUuid u (l ++ [b]) = countUuid u l + (if b.uuid == u then 1 else 0) := by
  simp only [countUuid, List.filter_append, List.length_append, List.filter_cons,
    List.filter_nil]
  by_cases hb : (b.uuid == u) = true <;> simp [hb]

theorem countUuid_eq_zero {u : String} {l : List Application}
    (h : ∀ a ∈ l, (a.uuid == u) = false) : countUuid u l = 0 := by
  rw [countUuid, List.length_eq_zero, List.filter_eq_nil_iff]
  intro a ha
  simp [h a ha]

theorem mergedEntry_uuid (env : Env) (application : Application)
    (app : Option Application) :
    (mergedEntry env application app).uuid = application.uuid := rfl

/-- One `updateApplication` call preserves the at-most-one-entry-per-uuid
invariant: close filters (a sublist), a found entry is replaced in place by an
entry with the same uuid, and a fresh entry is appended only when no entry
with that uuid exists. -/
theorem updateApplication_preserves (env : Env) (p : Application)
    (s : List Application) (h : ∀ u, countUuid u s ≤ 1) :
    ∀ u, countUuid u (updateApplication env p s).apps ≤ 1 := by
  intro u
  by_cases hc : isClosedPatch p = true
  · have happs : (updateApplication env p s).apps
        = s.filter fun a2 => p.uuid != a2.uuid := by
      simp [updateApplication, hc, getApplications_noFilter]
    rw [happs]
    exact le_trans (countUuid_filter_le u _ s) (h u)
  · rw [Bool.not_eq_true] at hc
    cases hidx : findIndex (fun a2 => p.uuid == a2.uuid) s with
    | some i =>
      have happs : (updateApplication env p s).apps
          = s.set i (mergedEntry env p s[i]?) := by
        simp only [updateApplication, getApplications_noFilter, hc, hidx]
        simp
      rcases findIndex_some hidx with ⟨a, ha, hpa⟩
      have hau : a.uuid = (mergedEntry env p s[i]?).uuid := by
        rw [mergedEntry_uuid]
        exact (beq_iff_eq.mp hpa).symm
      rw [happs, countUuid_set u s i _ ⟨a, ha, hau⟩]
      exact h u
    | none =>
      have happs : (updateApplication env p s).apps
          = s ++ [mergedEntry env p none] := by
        simp only [updateApplication, getApplications_noFilter, hc, hidx]
        simp
      rw [happs, countUuid_append]
      by_cases hu : ((mergedEntry env p none).uuid == u) = true
      · have hup : u = p.uuid := by
          have hthis := beq_iff_eq.mp hu
          rw [mergedEntry_uuid] at hthis
          exact hthis.symm
        have h0 : countUuid u s = 0 := by
          apply countUuid_eq_zero
          intro a ha
          have hfa := findIndex_none hidx a ha
          subst hup
          rcases Bool.eq_false_iff.mp hfa with _
          apply Bool.eq_false_iff.mpr
          intro hcontra
          exact Bool.eq_false_iff.mp hfa
            (beq_iff_eq.mpr (beq_iff_eq.mp hcontra).symm)
        rw [h0, hu]
        simp
      · rw [Bool.not_eq_true] at hu
        rw [hu]
        simpa using h u

/-- C3. Starting from a registry with at most one entry per uuid, any finite
sequence of `updateApplication` calls leaves at most one entry per uuid:
`getApplications` filtered by any uuid returns at most one entry. -/
theorem updateApplication_unique_uuid (env : Env) (patches : List Application)
    (stored : List Application)
    (h : ∀ u, (getApplications stored none (some u)).length ≤ 1) :
    ∀ u, (getApplications
        (patches.foldl (fun s q => (updateApplication env q s).apps) stored)
        none (some u)).length ≤ 1 := by
  have hgen : ∀ (ps : List Application) (s0 : List Application),
      (∀ u, countUuid u s0 ≤ 1) →
      ∀ u, countUuid u (ps.foldl (fun s q => (updateApplication env q s).apps) s0) ≤ 1 := by
    intro ps
    induction ps with
    | nil => intro s0 h0 u; simpa using h0 u
    | cons q qs ih =>
      intro s0 h0 u
      rw [List.foldl_cons]
      exact ih _ (updateApplication_preserves env q s0 h0) u
  intro u
  rw [getApplications_byUuid]
  exact hgen patches stored (fun v => h v) u

/-- Fixed uuid used by the concrete witnesses below. -/
def uuidA : String := "A"

/-- Concrete instance of `updateApplication_unique_uuid`: two updates naming
the same uuid starting from the empty registry leave at most one entry for it. -/
theorem updateApplication_unique_uuid_witness :
    (getApplications
        ([{ uuid := uuidA, layout := none, state := none, applicationConfiguration := none },
          { uuid := uuidA
          , layout := some { dimension := some { height := some 100, width := none }
                           , position := none }
          , state := none, applicationConfiguration := none }].foldl
          (fun s q => (updateApplication Env.node q s).apps) [])
        none (some uuidA)).length ≤ 1 :=
  updateApplication_unique_uuid Env.node
    [{ uuid := uuidA, layout := none, state := none, applicationConfiguration := none },
     { uuid := uuidA
     , layout := some { dimension := some { height := some 100, width := none }
                      , position := none }
     , state := none, applicationConfiguration := none }]
    [] (fun _ => Nat.zero_le 1) uuidA

theorem orElse_none {α : Type} (o : Option α) : (o.orElse fun _ => none) = o := by
  cases o <;> rfl

/-- Characterization of the non-close branch when no entry matches the patch's
uuid: the merged entry is built from the patch alone (previous entry `none`)
and appended. -/
theorem updateApplication_notFound (env : Env) (q : Application)
    (s : List Application) (hq : isClosedPatch q = false)
    (hidx : findIndex (fun a2 => q.uuid == a2.uuid) s = none) :
    (updateApplication env q s).returned = some (mergedEntry env q none)
    ∧ (updateApplication env q s).apps = s ++ [mergedEntry env q none] := by
  simp only [updateApplication, getApplications_noFilter, hq, hidx]
  simp

/-- C5. A CLOSED patch removes every entry with the patch's uuid, creates no
entry and returns nothing; with no matching entry the registry is unchanged (a
no-op, not an error); and a subsequent non-CLOSED update for that uuid
re-creates it as a fresh entry built from the patch alone (previous layout
`none` — no memory of the pre-close layout). -/
theorem updateApplication_close (env : Env) (stored : List Application)
    (p : Application) (hc : isClosedPatch p = true) :
    (updateApplication env p stored).returned = none
    ∧ (updateApplication env p stored).apps
        = stored.filter (fun a2 => p.uuid != a2.uuid)
    ∧ getApplications (updateApplication env p stored).apps none (some p.uuid) = []
    ∧ ((∀ a ∈ stored, a.uuid ≠ p.uuid) →
        (updateApplication env p stored).apps = stored)
    ∧ (∀ q : Application, isClosedPatch q = false → q.uuid = p.uuid →
        (updateApplication env q (updateApplication env p stored).apps).returned
          = some (validateApp
              { uuid := q.uuid
              , layout := some (updateLayout env q.layout none)
              , state := q.state
              , applicationConfiguration := q.applicationConfiguration })) := by
  have h2 : (updateApplication env p stored).apps
      = stored.filter fun a2 => p.uuid != a2.uuid := by
    simp [updateApplication, hc, getApplications_noFilter]
  have hret : (updateApplication env p stored).returned = none := by
    simp [updateApplication, hc]
  refine ⟨hret, h2, ?_, ?_, ?_⟩
  · rw [getApplications_byUuid, h2, List.filter_eq_nil_iff]
    intro a ha
    have hne := (List.mem_filter.mp ha).2
    simp only [bne_iff_ne, ne_eq] at hne
    simp [beq_iff_eq]
    exact fun hcontra => hne hcontra.symm
  · intro hno
    rw [h2]
    apply List.filter_eq_self.mpr
    intro a ha
    simp only [bne_iff_ne, ne_eq]
    exact fun hcontra => hno a ha hcontra.symm
  · intro q hq hqu
    have hidx : findIndex (fun a2 => q.uuid == a2.uuid)
        ((updateApplication env p stored).apps) = none := by
      apply findIndex_eq_none
      intro a ha
      rw [h2] at ha
      have hne := (List.mem_filter.mp ha).2
      simp only [bne_iff_ne, ne_eq] at hne
      rw [hqu]
      simp [beq_iff_eq]
      exact hne
    rw [(updateApplication_notFound env q (updateApplication env p stored).apps hq hidx).1]
    unfold mergedEntry
    rw [Option.none_bind, Option.none_bind, Option.none_bind, orElse_none, orElse_none]

/-- Concrete instance of `updateApplication_close`: closing uuid "A" and then
re-opening it yields a fresh entry built from the re-open patch alone. -/
theorem updateApplication_close_witness :
    (updateApplication Env.node
        { uuid := uuidA
        , layout := some { dimension := none
                         , position := some { x := some 5, y := none, z := none } }
        , state := some { status := some StatusEnum.OPEN }
        , applicationConfiguration := none }
        (updateApplication Env.node
          { uuid := uuidA, layout := none
          , state := some { status := some StatusEnum.CLOSED }
          , applicationConfiguration := none }
          [{ uuid := uuidA
           , layout := some { dimension := some { height := some 500, width := some 600 }
                            , position := some { x := some 50, y := some 60, z := some 10 } }
           , state := some { status := some StatusEnum.OPEN }
           , applicationConfiguration := none }]).apps).returned
      = some (validateApp
          { uuid := uuidA
          , layout := some (updateLayout Env.node
              (some { dimension := none
                    , position := some { x := some 5, y := none, z := none } }) none)
          , state := some { status := some StatusEnum.OPEN }
          , applicationConfiguration := none }) :=
  (updateApplication_close Env.node
    [{ uuid := uuidA
     , layout := some { dimension := some { height := some 500, width := some 600 }
                      , position := some { x := some 50, y := some 60, z := some 10 } }
     , state := some { status := some StatusEnum.OPEN }
     , applicationConfiguration := none }]
    { uuid := uuidA, layout := none
    , state := some { status := some StatusEnum.CLOSED }
    , applicationConfiguration := none }
    rfl).2.2.2.2
    { uuid := uuidA
    , layout := some { dimension := none
                     , position := some { x := some 5, y := none, z := none } }
    , state := some { status := some StatusEnum.OPEN }
    , applicationConfiguration := none }
    rfl rfl

/-- C10. `updateApplication` mutates its caller-supplied patch in place: on
every non-close call, the patch object ends with its `layout` field
overwritten by the merged, pre-validation layout computed by `updateLayout`
(in particular the field is always present afterwards, even when the caller
passed no layout). -/
theorem updateApplication_mutates_argument (env : Env) (stored : List Application)
    (p : Application) (hc : isClosedPatch p = false) :
    (updateApplication env p stored).applicationAfter
      = { p with layout := some (updateLayout env p.layout
          (((findIndex (fun a2 => p.uuid == a2.uuid) stored).bind
              fun i => stored[i]?).bind Application.layout)) }
    ∧ ((updateApplication env p stored).applicationAfter).layout.isSome = true := by
  have hmain : (updateApplication env p stored).applicationAfter
      = { p with layout := some (updateLayout env p.layout
          (((findIndex (fun a2 => p.uuid == a2.uuid) stored).bind
              fun i => stored[i]?).bind Application.layout)) } := by
    simp [updateApplication, hc, getApplications_noFilter]
  exact ⟨hmain, by rw [hmain]; rfl⟩

/-- Concrete instance of `updateApplication_mutates_argument`: a patch with no
layout at all comes back with its layout overwritten by the merged layout. -/
theorem updateApplication_mutates_argument_witness :
    (updateApplication Env.node
        { uuid := uuidA, layout := none, state := none
        , applicationConfiguration := none } []).applicationAfter
      = { uuid := uuidA
        , layout := some (updateLayout Env.node none
            (((findIndex (fun a2 => uuidA == a2.uuid) ([] : List Application)).bind
                fun i => ([] : List Application)[i]?).bind Application.layout))
        , state := none
        , applicationConfiguration := none }
    ∧ ((updateApplication Env.node
        { uuid := uuidA, layout := none, state := none
        , applicationConfiguration := none } []).applicationAfter).layout.isSome = true :=
  updateApplication_mutates_argument Env.node []
    { uuid := uuidA, layout := none, state := none, applicationConfiguration := none }
    rfl

end AMCache
